import Mathlib

/-!
Verification of the NBA betting-bot core (portfolio ledger, NEA scoring
formula, and morning allocation policy) against its specification.

The Python sources (`portfolio.py`, `nea_formula.py`, `bot.py`) are embedded
shallowly: Python floats become exact rationals (`ℚ`), dictionaries become
structures with `Option` fields for keys accessed through `.get` with a
default, and the mutable `Portfolio` object becomes explicit state passing.
Python's built-in `round(x, k)` (round half to even at the k-th decimal) is
modelled exactly on `ℚ`.
-/

/-- Python's `round` to an integer: round half to even.  `⌊q⌋` when the
fractional part is below 1/2, `⌊q⌋ + 1` when above, and the even neighbour
on an exact tie. -/
def pyRound (q : ℚ) : ℤ :=
  if q - ⌊q⌋ < 1/2 then ⌊q⌋
  else if 1/2 < q - ⌊q⌋ then ⌊q⌋ + 1
  else if ⌊q⌋ % 2 = 0 then ⌊q⌋ else ⌊q⌋ + 1

/-- Python's `round(q, k)`: round half to even at the k-th decimal place. -/
def roundDp (k : ℕ) (q : ℚ) : ℚ :=
  (pyRound (q * 10 ^ k) : ℚ) / 10 ^ k

/-! ## Data model: positions and ledger state (`portfolio.py`) -/

/-- A bet dictionary as built by `bot.py` and consumed by `portfolio.py`.
Keys read via `dict.get` with a default are `Option`-valued. -/
structure Bet where
  id           : String
  date         : Option String
  market_id    : String
  home         : String
  away         : String
  bet_on       : String
  poly_price   : Option ℚ    -- `bet.get("poly_price", 50)`
  nea_score    : Option ℚ
  amount_usd   : ℚ
  status       : String      -- "OPEN" | "RESOLVED"
  result       : Option String
  final_score  : Option String
  pnl          : Option ℚ
  news_summary : String
  rationale    : String
deriving DecidableEq, Repr

/-- The JSON snapshot written by `Portfolio.save` (portfolio.json). -/
structure SaveData where
  capital   : ℚ
  initial   : ℚ
  total_pnl : ℚ
  bets      : List Bet
deriving DecidableEq, Repr

/-- In-memory `Portfolio` state plus the persisted snapshot file (modelled as
`Option SaveData`: `none` means the file does not exist). -/
structure State where
  capital   : ℚ
  initial   : ℚ
  total_pnl : ℚ
  bets      : List Bet
  file      : Option SaveData
deriving DecidableEq, Repr

/-- `Portfolio.save`: writes `{round(capital,4), initial, round(total_pnl,4), bets}`. -/
def saveState (st : State) : State :=
  { st with file := some ⟨roundDp 4 st.capital, st.initial, roundDp 4 st.total_pnl, st.bets⟩ }

/-- The snapshot record `save` writes for a given state. -/
def snapshot (st : State) : SaveData :=
  ⟨roundDp 4 st.capital, st.initial, roundDp 4 st.total_pnl, st.bets⟩

/-- `Portfolio._load` when the snapshot file exists: fields are read back
verbatim from the file. -/
def loadState (d : SaveData) : State :=
  ⟨d.capital, d.initial, d.total_pnl, d.bets, some d⟩

/-- `Portfolio._load` when no file exists: fresh ledger, then `save()`. -/
def initState (c0 : ℚ) : State :=
  saveState ⟨c0, c0, 0, [], none⟩

/-- `sum(b["amount_usd"] for b in bets if b["status"] == "OPEN")`. -/
def openAmountSum : List Bet → ℚ
  | [] => 0
  | b :: rest => (if b.status = "OPEN" then b.amount_usd else 0) + openAmountSum rest

/-- `Portfolio.deployed_capital`. -/
def deployed_capital (st : State) : ℚ := openAmountSum st.bets

/-- `Portfolio.exposure_ratio` (Python name `exposure_ratio`): guards only
`capital == 0`, returning 1.0 there; otherwise `deployed / capital`. -/
def exposureFraction (st : State) : ℚ :=
  if st.capital = 0 then 1 else deployed_capital st / st.capital

/-- `Portfolio.available_capital`. -/
def available_capital (st : State) (max_total_exposed : ℚ) : ℚ :=
  max 0 (st.capital * max_total_exposed - deployed_capital st)

/-- `Portfolio.place_bet`: overwrites `bet["id"]` with a fresh id (the id is
passed in, modelling `uuid.uuid4()`), then appends.  Touches nothing else. -/
def place_bet (newId : String) (b : Bet) (st : State) : State :=
  { st with bets := st.bets ++ [{ b with id := newId }] }

/-! ## Resolution (`Portfolio.resolve_bet`) -/

/-- The loop guard in `resolve_bet`: skip non-OPEN bets, then match the
`(home, away)` pair of the `'home|away'` key. -/
def isOpenMatch (h a : String) (b : Bet) : Bool :=
  b.status == "OPEN" && b.home == h && b.away == a

/-- The settlement of one matched bet inside `resolve_bet`: status RESOLVED,
winner and score recorded, and the Polymarket-simulation PnL
(win → `amount * (1/price - 1)` with `price = poly_price.get(…,50)/100`,
loss → `-amount`; the stored `pnl` field is rounded to 4 decimals while the
returned amount is not). -/
def settleBet (b : Bet) (winner score : String) : Bet × ℚ :=
  let won := winner == b.bet_on
  let price := b.poly_price.getD 50 / 100
  let pnl := if won then b.amount_usd * (1 / price - 1) else -b.amount_usd
  ({ b with status := "RESOLVED", result := some winner,
            final_score := some score, pnl := some (roundDp 4 pnl) }, pnl)

/-- The `for bet in self.bets` scan of `resolve_bet`: settles the first OPEN
match and returns the updated list together with the PnL applied (`none`
when no OPEN bet matched and the loop fell through to the warning). -/
def resolveScan (h a winner score : String) : List Bet → List Bet × Option ℚ
  | [] => ([], none)
  | b :: rest =>
    if isOpenMatch h a b then
      ((settleBet b winner score).1 :: rest, some (settleBet b winner score).2)
    else
      let r := resolveScan h a winner score rest
      (b :: r.1, r.2)

/-- `Portfolio.resolve_bet` with the key already split into `home` and
`away`.  The returned `Bool` is `true` when a bet was settled and `false`
when the scan fell through to the "Could not find open bet" warning. -/
def resolve_bet (st : State) (h a winner score : String) : State × Bool :=
  match resolveScan h a winner score st.bets with
  | (_, none) => (st, false)
  | (bets', some p) =>
    ({ st with bets := bets', capital := st.capital + p,
               total_pnl := st.total_pnl + p }, true)

/-- Index of the first OPEN bet matching the key, in insertion order. -/
def firstOpenMatchIdx (h a : String) : List Bet → Option ℕ
  | [] => none
  | b :: rest =>
    if isOpenMatch h a b then some 0
    else (firstOpenMatchIdx h a rest).map (· + 1)

/-! ## Ledger operation sequences -/

/-- One external call to the ledger: `place_bet` (with the generated uuid
made explicit) or `resolve_bet`. -/
inductive LedgerOp where
  | place (newId : String) (b : Bet)
  | resolve (h a winner score : String)
deriving DecidableEq, Repr

/-- Apply one ledger operation to the state. -/
def stepOp (st : State) (op : LedgerOp) : State :=
  match op with
  | .place i b => place_bet i b st
  | .resolve h a w s => (resolve_bet st h a w s).1

/-- The ledger state after a sequence of calls starting from a fresh ledger. -/
def runOps (c0 : ℚ) (ops : List LedgerOp) : State :=
  List.foldl stepOp (initState c0) ops

/-! ## NEA formula (`nea_formula.py`) -/

/-- `normalize_news_score`: clamp raw news impact to [-40, 20] and rescale
onto [0, 100]. -/
def normalize_news_score (raw_n : ℚ) : ℚ :=
  (max (-40) (min 20 raw_n) + 40) / 60 * 100

/-- `normalize_streak`: clamp the last-5 win percentage to [0, 100]. -/
def normalize_streak (win_pct : ℚ) : ℚ :=
  max 0 (min 100 win_pct)

/-- `compute_nea`: market price minus the weighted "real probability"
estimate, rounded to 3 decimals.  Weights as in the source:
0.35 vegas, 0.50 news, 0.10 home/away, 0.05 streak. -/
def compute_nea (p_poly p_vegas n v r : ℚ) : ℚ :=
  roundDp 3 (p_poly -
    (0.35 * p_vegas + 0.50 * normalize_news_score n + 0.10 * v
      + 0.05 * normalize_streak r))

/-- Result record of `interpret_nea` (the `breakdown` dict is always empty
in the source and is omitted). -/
structure NEAResult where
  nea_score  : ℚ
  action     : String
  confidence : String
deriving DecidableEq, Repr

/-- `interpret_nea`: fixed threshold bands on the NEA score. -/
def interpret_nea (nea : ℚ) : NEAResult :=
  if nea < -10 then ⟨nea, "BUY", "HIGH"⟩
  else if nea < -5 then ⟨nea, "BUY", "MEDIUM"⟩
  else if nea ≤ 5 then ⟨nea, "NEUTRAL", "LOW"⟩
  else if nea ≤ 10 then ⟨nea, "AVOID", "MEDIUM"⟩
  else ⟨nea, "AVOID", "HIGH"⟩

/-- Favorability rank of an action: BUY < NEUTRAL < AVOID. -/
def actionRank (a : String) : ℕ :=
  if a = "BUY" then 0 else if a = "NEUTRAL" then 1 else 2

/-- The scorer exactly as the spec words it, with the spec's reference
weights (reference-odds 0.45, news 0.40, home/away 0.10, streak 0.05) and
the news normalization written as a linear rescale of the clamped raw score
onto [0, 100] (−40 → 0, +20 → 100). -/
def specNeaRefWeights (marketPrice refProb newsRaw offset streakPct : ℚ) : ℚ :=
  roundDp 3 (marketPrice -
    (0.45 * refProb
      + 0.40 * ((max (-40) (min 20 newsRaw) - (-40)) / (20 - (-40)) * 100)
      + 0.10 * offset
      + 0.05 * max 0 (min 100 streakPct)))

/-- The spec's formula shape with the weights the source actually uses
(0.35 reference odds, 0.50 news, 0.10 home/away, 0.05 streak). -/
def specNeaCodeWeights (marketPrice refProb newsRaw offset streakPct : ℚ) : ℚ :=
  roundDp 3 (marketPrice -
    (0.35 * refProb
      + 0.50 * ((max (-40) (min 20 newsRaw) - (-40)) / (20 - (-40)) * 100)
      + 0.10 * offset
      + 0.05 * max 0 (min 100 streakPct)))

/-- The claimed settlement entry price with clamping, from the spec's words:
`entryPrice = clamp(priceCents, 1, 100)/100`. -/
def specClampEntryPrice (priceCents : ℚ) : ℚ :=
  max 1 (min 100 priceCents) / 100

/-! ## Morning allocation policy (`bot.py::run_morning`) -/

/-- A parsed game candidate from the morning analysis; every field is read
through `.get` with a default in the source. -/
structure Game where
  home             : Option String
  away             : Option String
  bet_on           : Option String
  market_id        : Option String
  news_summary     : Option String
  rationale        : Option String
  poly_price       : Option ℚ
  vegas_prob       : Option ℚ
  news_score       : Option ℚ
  home_away_factor : Option ℚ
  streak_pct       : Option ℚ
deriving DecidableEq, Repr

/-- `bot.py` configuration constant `MAX_BET_PCT = 0.33`. -/
def MAX_BET_PCT : ℚ := 0.33

/-- `bot.py` configuration constant `MAX_TOTAL_EXPOSED = 0.33`. -/
def MAX_TOTAL_EXPOSED : ℚ := 0.33

/-- One iteration of the `for game in games` loop in `run_morning`: score the
candidate, skip unless the signal is BUY, size the stake, skip dust below
$0.10, otherwise place the bet.  Returns the new state and the stake placed
(if any). -/
def morningStep (today newId : String) (st : State) (g : Game) : State × Option ℚ :=
  let nea := compute_nea (g.poly_price.getD 50) (g.vegas_prob.getD 50)
    (g.news_score.getD 0) (g.home_away_factor.getD 0) (g.streak_pct.getD 50)
  let signal := interpret_nea nea
  if signal.action ≠ "BUY" then (st, none)
  else
    let avail := available_capital st MAX_TOTAL_EXPOSED
    let bet_amount := roundDp 2 (min (st.capital * MAX_BET_PCT) avail)
    if bet_amount < 0.10 then (st, none)
    else
      let home := g.home.getD "?"
      let bet : Bet :=
        { id := "", date := some today, market_id := g.market_id.getD "SIMULATED",
          home := home, away := g.away.getD "?", bet_on := g.bet_on.getD home,
          poly_price := some (g.poly_price.getD 50),
          nea_score := some (roundDp 2 nea), amount_usd := bet_amount,
          status := "OPEN", result := none, final_score := none, pnl := none,
          news_summary := g.news_summary.getD "", rationale := g.rationale.getD "" }
      (place_bet newId bet st, some bet_amount)

/-- The candidate loop of `run_morning`, also returning the list of states
observed immediately after each placement (for the exposure-cap property). -/
def morningLoop (today : String) : List (String × Game) → State → State × List State
  | [], st => (st, [])
  | (nid, g) :: rest, st =>
    match morningStep today nid st g with
    | (st1, none) => morningLoop today rest st1
    | (st1, some _) =>
      let r := morningLoop today rest st1
      (r.1, st1 :: r.2)

/-- `run_morning`: rejects the whole session when exposure is already at or
above the cap, otherwise runs the candidate loop (uuids supplied alongside
each game) and saves.  External analyzer/order-sink calls and logging have
no effect on ledger state and are not modelled. -/
def run_morning (today : String) (idGames : List (String × Game)) (st : State) :
    State × List State :=
  if MAX_TOTAL_EXPOSED ≤ exposureFraction st then (st, [])
  else
    let r := morningLoop today idGames st
    (saveState r.1, r.2)

/-! ## Concrete fixtures used by witnesses and counterexamples -/

/-- An OPEN bet with the given key, side, stake, and entry price in cents. -/
def mkOpenBet (home away bet_on : String) (amount price : ℚ) : Bet :=
  { id := "b0", date := none, market_id := "SIMULATED", home := home,
    away := away, bet_on := bet_on, poly_price := some price, nea_score := none,
    amount_usd := amount, status := "OPEN", result := none, final_score := none,
    pnl := none, news_summary := "", rationale := "" }

/-- Scenario A setup: fresh ledger at 20.00 with a 6.60 stake on the home
side at 55¢. -/
def stScenA : State := place_bet "w1" (mkOpenBet "H" "A" "H" (33/5) 55) (initState 20)

/-- A ledger holding an unclamped 200¢ bet, for the clamping counterexample. -/
def stClamp : State := place_bet "c1" (mkOpenBet "H" "A" "H" 1 200) (initState 20)

/-- A ledger holding exactly one OPEN bet matching the key `H|A`. -/
def stOne : State := place_bet "o1" (mkOpenBet "H" "A" "H" 1 50) (initState 20)

/-- A ledger holding two OPEN bets that both match the key `H|A`. -/
def stTwo : State :=
  place_bet "t2" (mkOpenBet "H" "A" "H" 2 40)
    (place_bet "t1" (mkOpenBet "H" "A" "H" 1 50) (initState 20))

/-- A reachable ledger whose capital has more than 4 decimal places:
stake 1 at 69¢ resolved as a win (pnl 31/69). -/
def stReach : State :=
  runOps 20 [.place "i1" (mkOpenBet "H" "A" "H" 1 69), .resolve "H" "A" "H" "100-90"]

/-- A ledger with negative capital and an OPEN position. -/
def stNeg : State := ⟨-10, 20, -30, [mkOpenBet "X" "Y" "X" 5 50], none⟩

/-- A ledger with zero capital. -/
def stZero : State := ⟨0, 20, -20, [], none⟩

/-- A ledger at exactly the 33% exposure cap: capital 20, deployed 6.60. -/
def stCap : State := ⟨20, 20, 0, [mkOpenBet "X" "Y" "X" (33/5) 50], none⟩

/-- A candidate game scoring a strong BUY (NEA = -33.833). -/
def gFixture : Game :=
  { home := some "H", away := some "A", bet_on := some "H", market_id := none,
    news_summary := none, rationale := none, poly_price := some 30,
    vegas_prob := some 80, news_score := some 0, home_away_factor := some 0,
    streak_pct := some 50 }

/-- The state after the fixture game's bet is placed on a fresh ledger. -/
def sAfterFixture : State := (morningStep "d" "i" (initState 20) gFixture).1

/-! ## Helper lemmas -/

theorem floor_le_pyRound (q : ℚ) : ⌊q⌋ ≤ pyRound q := by
  unfold pyRound
  split_ifs <;> omega

theorem pyRound_le_floor_add_one (q : ℚ) : pyRound q ≤ ⌊q⌋ + 1 := by
  unfold pyRound
  split_ifs <;> omega

theorem pyRound_mono {a b : ℚ} (h : a ≤ b) : pyRound a ≤ pyRound b := by
  have hf : ⌊a⌋ ≤ ⌊b⌋ := Int.floor_le_floor h
  rcases lt_or_eq_of_le hf with hlt | heq
  · calc pyRound a ≤ ⌊a⌋ + 1 := pyRound_le_floor_add_one a
    _ ≤ ⌊b⌋ := by omega
    _ ≤ pyRound b := floor_le_pyRound b
  · unfold pyRound
    rw [← heq]
    have hab : a - ⌊a⌋ ≤ b - ⌊a⌋ := by linarith
    split_ifs <;> first | omega | linarith

theorem pyRound_le (q : ℚ) : (pyRound q : ℚ) ≤ q + 1/2 := by
  have h1 : (⌊q⌋ : ℚ) ≤ q := Int.floor_le q
  unfold pyRound
  split_ifs <;> push_cast <;> linarith

theorem le_pyRound (q : ℚ) : q - 1/2 ≤ (pyRound q : ℚ) := by
  have h2 : q < ⌊q⌋ + 1 := Int.lt_floor_add_one q
  unfold pyRound
  split_ifs <;> push_cast <;> linarith

theorem roundDp_mono (k : ℕ) {a b : ℚ} (h : a ≤ b) : roundDp k a ≤ roundDp k b := by
  unfold roundDp
  have hp : (0 : ℚ) < 10 ^ k := by positivity
  have hc : (pyRound (a * 10 ^ k) : ℚ) ≤ (pyRound (b * 10 ^ k) : ℚ) := by
    exact_mod_cast pyRound_mono (by nlinarith)
  gcongr

theorem roundDp_le (k : ℕ) (q : ℚ) : roundDp k q ≤ q + 1 / (2 * 10 ^ k) := by
  unfold roundDp
  have hp : (0 : ℚ) < 10 ^ k := by positivity
  have h := pyRound_le (q * 10 ^ k)
  rw [div_le_iff₀ hp]
  have he : (q + 1 / (2 * 10 ^ k)) * 10 ^ k = q * 10 ^ k + 1/2 := by
    field_simp
    ring
  rw [he]
  exact h

theorem abs_roundDp_sub_le (k : ℕ) (q : ℚ) : |roundDp k q - q| ≤ 1 / (2 * 10 ^ k) := by
  have hp : (0 : ℚ) < 10 ^ k := by positivity
  have h1 := pyRound_le (q * 10 ^ k)
  have h2 := le_pyRound (q * 10 ^ k)
  have he : roundDp k q - q = ((pyRound (q * 10 ^ k) : ℚ) - q * 10 ^ k) / 10 ^ k := by
    unfold roundDp
    field_simp
    ring
  rw [he, abs_div, abs_of_pos hp]
  calc |(pyRound (q * 10 ^ k) : ℚ) - q * 10 ^ k| / 10 ^ k
      ≤ (1/2) / 10 ^ k := by
        gcongr
        rw [abs_le]
        constructor <;> linarith
    _ = 1 / (2 * 10 ^ k) := by ring

theorem resolveScan_no_match (h a w sc : String) :
    ∀ l : List Bet, (∀ b ∈ l, isOpenMatch h a b = false) →
      resolveScan h a w sc l = (l, none) := by
  intro l
  induction l with
  | nil => intro _; rfl
  | cons b rest ih =>
    intro hl
    have hb : isOpenMatch h a b = false := hl b (List.mem_cons_self _ _)
    have hr := ih fun x hx => hl x (List.mem_cons_of_mem _ hx)
    simp [resolveScan, hb, hr]

theorem resolveScan_first_match (h a w sc : String) :
    ∀ (l : List Bet) (i : ℕ) (b : Bet),
      firstOpenMatchIdx h a l = some i → l[i]? = some b →
      resolveScan h a w sc l = (l.set i (settleBet b w sc).1, some (settleBet b w sc).2) := by
  intro l
  induction l with
  | nil => intro i b hidx _; simp [firstOpenMatchIdx] at hidx
  | cons hd tl ih =>
    intro i b hidx hget
    by_cases hm : isOpenMatch h a hd
    · simp [firstOpenMatchIdx, hm] at hidx
      subst hidx
      simp at hget
      subst hget
      simp [resolveScan, hm]
    · simp [firstOpenMatchIdx, hm] at hidx
      obtain ⟨i', hi', rfl⟩ := hidx
      simp at hget
      have := ih i' b hi' hget
      simp [resolveScan, hm, this]

theorem openAmountSum_append (l1 l2 : List Bet) :
    openAmountSum (l1 ++ l2) = openAmountSum l1 + openAmountSum l2 := by
  induction l1 with
  | nil => simp [openAmountSum]
  | cons b rest ih => simp [openAmountSum, ih]; ring

theorem deployed_place_bet (newId : String) (b : Bet) (st : State) :
    deployed_capital (place_bet newId b st) =
      deployed_capital st + (if b.status = "OPEN" then b.amount_usd else 0) := by
  simp [deployed_capital, place_bet, openAmountSum_append, openAmountSum]

theorem stepOp_preserves_conservation (st : State) (op : LedgerOp)
    (hinv : st.capital = st.initial + st.total_pnl) :
    (stepOp st op).capital = (stepOp st op).initial + (stepOp st op).total_pnl := by
  cases op with
  | place i b => simpa [stepOp, place_bet] using hinv
  | resolve h a w s =>
    rcases hr : resolveScan h a w s st.bets with ⟨bets', p⟩
    cases p with
    | none => simp [stepOp, resolve_bet, hr, hinv]
    | some q =>
      simp only [stepOp, resolve_bet, hr]
      show st.capital + q = st.initial + (st.total_pnl + q)
      linarith

/-- C1: starting from a fresh ledger, for every sequence of `place_bet` and
`resolve_bet` calls the ledger satisfies `capital == initial + total_pnl`
(hence within the 1e-6 tolerance) after every call, in particular after
every `resolve_bet`. -/
theorem capital_conservation (c0 : ℚ) (ops : List LedgerOp) :
    |(runOps c0 ops).capital - ((runOps c0 ops).initial + (runOps c0 ops).total_pnl)|
      ≤ 1/1000000 := by
  have key : ∀ (l : List LedgerOp) (st : State),
      st.capital = st.initial + st.total_pnl →
      (List.foldl stepOp st l).capital =
        (List.foldl stepOp st l).initial + (List.foldl stepOp st l).total_pnl := by
    intro l
    induction l with
    | nil => intro st h; simpa using h
    | cons op rest ih =>
      intro st h
      exact ih (stepOp st op) (stepOp_preserves_conservation st op h)
  have h0 : (initState c0).capital = (initState c0).initial + (initState c0).total_pnl := by
    simp [initState, saveState]
  have := key ops (initState c0) h0
  rw [runOps, this]
  simp

/-- C5: `resolve_bet` with a key matching no OPEN bet leaves the whole state
unchanged (capital, total_pnl, and every stored bet) and reports the miss as
not-found (the `false` component, i.e. the "Could not find open bet"
warning) instead of resolving anything.  The witness instantiates the
"second call after a successful resolution" case. -/
theorem resolve_not_found (st : State) (h a w sc : String)
    (hnone : ∀ b ∈ st.bets, isOpenMatch h a b = false) :
    resolve_bet st h a w sc = (st, false) := by
  unfold resolve_bet
  rw [resolveScan_no_match h a w sc st.bets hnone]

/-- Witness for C5: resolving `H|A` on a one-bet ledger succeeds once; the
second call with the same key is a reported no-op. -/
theorem resolve_not_found_witness :
    resolve_bet (resolve_bet stOne "H" "A" "H" "99-90").1 "H" "A" "H" "99-90"
      = ((resolve_bet stOne "H" "A" "H" "99-90").1, false) := by
  apply resolve_not_found
  intro b hb
  simp [stOne, place_bet, initState, saveState, mkOpenBet, resolve_bet,
    resolveScan, isOpenMatch, settleBet] at hb
  subst hb
  simp [isOpenMatch]

/-- C6: `resolve_bet` scans in insertion order and settles exactly the first
OPEN bet matching the `home|away` key: position `i` becomes the settled bet,
every other position (in particular every later OPEN match) is unchanged,
and the call reports success. -/
theorem resolve_first_open_match (st : State) (h a w sc : String) (i : ℕ) (b : Bet)
    (hidx : firstOpenMatchIdx h a st.bets = some i)
    (hget : st.bets[i]? = some b) :
    (resolve_bet st h a w sc).1.bets = st.bets.set i (settleBet b w sc).1 ∧
    (resolve_bet st h a w sc).2 = true ∧
    ∀ j : ℕ, j ≠ i → (resolve_bet st h a w sc).1.bets[j]? = st.bets[j]? := by
  have hscan := resolveScan_first_match h a w sc st.bets i b hidx hget
  unfold resolve_bet
  rw [hscan]
  refine ⟨rfl, rfl, ?_⟩
  intro j hj
  simp [List.getElem?_set_ne (Ne.symm hj)]

/-- Witness for C6: on a ledger with two OPEN bets both matching `H|A`, the
call settles position 0 and leaves position 1 untouched (still OPEN). -/
theorem resolve_first_open_match_witness :
    (resolve_bet stTwo "H" "A" "H" "99-90").1.bets =
      stTwo.bets.set 0 (settleBet { mkOpenBet "H" "A" "H" 1 50 with id := "t1" } "H" "99-90").1 ∧
    (resolve_bet stTwo "H" "A" "H" "99-90").2 = true ∧
    (resolve_bet stTwo "H" "A" "H" "99-90").1.bets[1]? = stTwo.bets[1]? := by
  have h := resolve_first_open_match stTwo "H" "A" "H" "99-90" 0
    { mkOpenBet "H" "A" "H" 1 50 with id := "t1" } (by rfl) (by rfl)
  exact ⟨h.1, h.2.1, h.2.2 1 (by decide)⟩

/-- C2 counterexample: the code does NOT clamp the entry price.  On a 200¢
bet resolved as a win the code yields capital 19.5 (pnl −0.5), while the
claimed clamped settlement (`entryPrice = clamp(200,1,100)/100 = 1`) would
yield pnl 0 and capital 20. -/
theorem resolve_settlement_clamp_cex :
    (resolve_bet stClamp "H" "A" "H" "101-99").1.capital = 39/2 ∧
    stClamp.capital + 1 * (1 / specClampEntryPrice 200 - 1) = 20 ∧
    (39/2 : ℚ) ≠ 20 := by
  refine ⟨?_, ?_, by norm_num⟩
  · norm_num [stClamp, place_bet, initState, saveState, mkOpenBet, resolve_bet,
      resolveScan, isOpenMatch, settleBet]
  · norm_num [stClamp, place_bet, initState, saveState, specClampEntryPrice]

/-- C2 amended: when `resolve_bet` settles the first matching OPEN bet it
uses `entryPrice = priceCents/100` with `priceCents = poly_price` defaulting
to 50 and NOT clamped; a win adds `stake * (1/entryPrice - 1)` to both
capital and total_pnl, a loss adds `-stake`.  (Scenario A — 6.60 at 55¢ won
on a fresh 20.00 ledger giving pnl 5.40 and capital 25.40 — is the
witness.) -/
theorem resolve_settlement (st : State) (h a w sc : String) (i : ℕ) (b : Bet)
    (hidx : firstOpenMatchIdx h a st.bets = some i)
    (hget : st.bets[i]? = some b) :
    (resolve_bet st h a w sc).1.capital
      = st.capital + (if w = b.bet_on
          then b.amount_usd * (1 / (b.poly_price.getD 50 / 100) - 1)
          else -b.amount_usd) ∧
    (resolve_bet st h a w sc).1.total_pnl
      = st.total_pnl + (if w = b.bet_on
          then b.amount_usd * (1 / (b.poly_price.getD 50 / 100) - 1)
          else -b.amount_usd) := by
  have hscan := resolveScan_first_match h a w sc st.bets i b hidx hget
  unfold resolve_bet
  rw [hscan]
  have hpnl : (settleBet b w sc).2 =
      (if w = b.bet_on
        then b.amount_usd * (1 / (b.poly_price.getD 50 / 100) - 1)
        else -b.amount_usd) := by
    simp [settleBet, beq_iff_eq]
  constructor
  · show st.capital + (settleBet b w sc).2 = _
    rw [hpnl]
  · show st.total_pnl + (settleBet b w sc).2 = _
    rw [hpnl]

/-- Witness for C2 (Scenario A): fresh ledger 20.00, stake 6.60 at 55¢
resolved as a win → capital 25.40, total PnL 5.40. -/
theorem resolve_settlement_witness :
    (resolve_bet stScenA "H" "A" "H" "102-99").1.capital = 127/5 ∧
    (resolve_bet stScenA "H" "A" "H" "102-99").1.total_pnl = 27/5 := by
  have h := resolve_settlement stScenA "H" "A" "H" "102-99" 0
    { mkOpenBet "H" "A" "H" (33/5) 55 with id := "w1" } (by rfl) (by rfl)
  rw [h.1, h.2]
  norm_num [stScenA, place_bet, initState, saveState, mkOpenBet]

/-- C8 counterexample: a reachable ledger (fresh at 20.00, stake 1 at 69¢
resolved as a win, capital 20 + 31/69) whose save/load round trip changes
capital, because `save` rounds it to 4 decimals. -/
theorem save_load_roundtrip_cex :
    (loadState (snapshot stReach)).capital ≠ stReach.capital := by
  have hcap : stReach.capital = 1411/69 := by
    norm_num [stReach, runOps, stepOp, place_bet, initState, saveState,
      resolve_bet, resolveScan, isOpenMatch, settleBet, mkOpenBet]
  have hload : (loadState (snapshot stReach)).capital = roundDp 4 stReach.capital := rfl
  rw [hload, hcap]
  norm_num [roundDp, pyRound]

/-- C8 amended: `save` then load reproduces `initial` and the position list
exactly (same order), while capital and total_pnl come back rounded to 4
decimals (hence within 5e-5 of the originals), not necessarily identical. -/
theorem save_load_roundtrip (st : State) :
    (saveState st).file = some (snapshot st) ∧
    (loadState (snapshot st)).bets = st.bets ∧
    (loadState (snapshot st)).initial = st.initial ∧
    (loadState (snapshot st)).capital = roundDp 4 st.capital ∧
    (loadState (snapshot st)).total_pnl = roundDp 4 st.total_pnl ∧
    |(loadState (snapshot st)).capital - st.capital| ≤ 1/20000 ∧
    |(loadState (snapshot st)).total_pnl - st.total_pnl| ≤ 1/20000 := by
  refine ⟨rfl, rfl, rfl, rfl, rfl, ?_, ?_⟩
  · have := abs_roundDp_sub_le 4 st.capital
    norm_num at this ⊢
    exact this
  · have := abs_roundDp_sub_le 4 st.total_pnl
    norm_num at this ⊢
    exact this

/-- C9 counterexample: with negative capital (−10) and 5 deployed, the code
returns −1/2, not the claimed conservative 1.0 — the guard tests
`capital == 0` only. -/
theorem exposure_guard_cex :
    exposureFraction stNeg = -(1/2) ∧ (-(1/2) : ℚ) ≠ 1 := by
  constructor
  · norm_num [exposureFraction, stNeg, deployed_capital, openAmountSum, mkOpenBet]
  · norm_num

/-- C9 amended: `exposure_ratio` guards only the exact zero-capital case
(returning 1.0 there); for any nonzero capital — negative included — it
returns `deployed_capital / capital`. -/
theorem exposure_guard (st : State) :
    (st.capital = 0 → exposureFraction st = 1) ∧
    (st.capital ≠ 0 → exposureFraction st * st.capital = deployed_capital st) := by
  constructor
  · intro h
    simp [exposureFraction, h]
  · intro h
    rw [exposureFraction, if_neg h]
    field_simp

/-- Witness for C9: the zero-capital guard fires on `stZero`; on the
negative-capital ledger `stNeg` the returned fraction times capital is the
deployed amount. -/
theorem exposure_guard_witness :
    exposureFraction stZero = 1 ∧
    exposureFraction stNeg * stNeg.capital = deployed_capital stNeg := by
  refine ⟨(exposure_guard stZero).1 rfl, (exposure_guard stNeg).2 ?_⟩
  norm_num [stNeg]

/-- C10: `place_bet` appends exactly one entry — the given bet with its id
overwritten by the fresh id — and changes nothing else: capital, initial,
total_pnl, the snapshot file, every previously stored bet, and the bet's
own status are all untouched, and no save happens. -/
theorem place_bet_frame (newId : String) (b : Bet) (st : State) :
    (place_bet newId b st).capital = st.capital ∧
    (place_bet newId b st).initial = st.initial ∧
    (place_bet newId b st).total_pnl = st.total_pnl ∧
    (place_bet newId b st).file = st.file ∧
    (place_bet newId b st).bets = st.bets ++ [{ b with id := newId }] ∧
    ({ b with id := newId } : Bet).id = newId ∧
    ({ b with id := newId } : Bet).status = b.status ∧
    (place_bet newId b st).bets.take st.bets.length = st.bets := by
  refine ⟨rfl, rfl, rfl, rfl, rfl, rfl, rfl, ?_⟩
  simp [place_bet]

/-- C3 counterexample: `compute_nea` does not use the spec's reference
weights 0.45/0.40: at (50, 100, −40, 0, 0) the code returns 15 while the
0.45-weighted spec formula gives 5. -/
theorem compute_nea_weights_cex :
    compute_nea 50 100 (-40) 0 0 = 15 ∧
    specNeaRefWeights 50 100 (-40) 0 0 = 5 ∧
    (15 : ℚ) ≠ 5 := by
  refine ⟨?_, ?_, by norm_num⟩
  · norm_num [compute_nea, normalize_news_score, normalize_streak, roundDp, pyRound]
  · norm_num [specNeaRefWeights, roundDp, pyRound]

/-- C3 amended: `compute_nea` is exactly the spec's formula shape — news
clamped to [−40, 20] and linearly rescaled onto [0, 100], streak clamped to
[0, 100], `marketPrice − fair` rounded to 3 decimals — but with weights
0.35 (reference odds), 0.50 (news), 0.10 (offset), 0.05 (streak). -/
theorem compute_nea_spec_shape (p v n o r : ℚ) :
    compute_nea p v n o r = specNeaCodeWeights p v n o r := by
  unfold compute_nea specNeaCodeWeights normalize_news_score normalize_streak
  ring_nf

theorem interpret_nea_action (x : ℚ) :
    (interpret_nea x).action = if x < -5 then "BUY" else if x ≤ 5 then "NEUTRAL" else "AVOID" := by
  unfold interpret_nea
  split_ifs <;> first | rfl | linarith

theorem actionRank_interpret (x : ℚ) :
    actionRank (interpret_nea x).action = if x < -5 then 0 else if x ≤ 5 then 1 else 2 := by
  rw [interpret_nea_action]
  split_ifs <;> rfl

/-- C7 counterexample: because `compute_nea` rounds to 3 decimals, it is not
STRICTLY increasing in marketPrice: prices 0 and 1/10000 (all other inputs
fixed) give the same edge score. -/
theorem compute_nea_not_strict_cex :
    compute_nea 0 0 (-40) 0 0 = compute_nea (1/10000) 0 (-40) 0 0 ∧
    (0 : ℚ) < 1/10000 := by
  constructor
  · norm_num [compute_nea, normalize_news_score, normalize_streak, roundDp, pyRound]
  · norm_num

/-- C7 amended: for fixed other inputs, `compute_nea` is monotone
nondecreasing in marketPrice and nonincreasing in refProb (strictness is
defeated only by the 3-decimal rounding), and `interpret_nea`'s action bands
are monotone in the edge score: for `a ≤ b` the action at `a` is never less
favorable than at `b` on the BUY < NEUTRAL < AVOID scale, so BUY never
appears above a score mapped to NEUTRAL or AVOID.  Both functions are pure
by construction (deterministic Lean functions of their arguments). -/
theorem nea_monotone (p1 p2 v1 v2 p v n o r a b : ℚ) :
    (p1 ≤ p2 → compute_nea p1 v n o r ≤ compute_nea p2 v n o r) ∧
    (v1 ≤ v2 → compute_nea p v2 n o r ≤ compute_nea p v1 n o r) ∧
    (a ≤ b → actionRank (interpret_nea a).action ≤ actionRank (interpret_nea b).action) := by
  refine ⟨?_, ?_, ?_⟩
  · intro h
    unfold compute_nea
    apply roundDp_mono
    linarith
  · intro h
    unfold compute_nea
    apply roundDp_mono
    linarith
  · intro h
    rw [actionRank_interpret, actionRank_interpret]
    split_ifs <;> first | omega | linarith

/-- Witness for C7 at concrete scores: 10 ≤ 20 in marketPrice, 50 ≤ 60 in
refProb, and the band rank at −6 (BUY) versus 6 (AVOID). -/
theorem nea_monotone_witness :
    compute_nea 10 50 0 0 50 ≤ compute_nea 20 50 0 0 50 ∧
    compute_nea 10 60 0 0 50 ≤ compute_nea 10 50 0 0 50 ∧
    actionRank (interpret_nea (-6)).action ≤ actionRank (interpret_nea 6).action := by
  have h := nea_monotone 10 20 50 60 10 50 0 0 50 (-6) 6
  exact ⟨h.1 (by norm_num), h.2.1 (by norm_num), h.2.2 (by norm_num)⟩

theorem deployed_place_open (newId : String) (b : Bet) (st : State)
    (hb : b.status = "OPEN") :
    deployed_capital (place_bet newId b st) = deployed_capital st + b.amount_usd := by
  rw [deployed_place_bet]
  simp [hb]

theorem morningStep_some (today nid : String) (stp : State) (g : Game) (st' : State) (amt : ℚ)
    (h : morningStep today nid stp g = (st', some amt)) :
    amt = roundDp 2 (min (stp.capital * MAX_BET_PCT)
            (available_capital stp MAX_TOTAL_EXPOSED)) ∧
    1/10 ≤ amt ∧
    st'.capital = stp.capital ∧
    deployed_capital st' ≤ st'.capital * MAX_TOTAL_EXPOSED + 1/200 := by
  simp only [morningStep] at h
  split_ifs at h with h1 h2
  · simp at h
  · simp at h
  · rw [Prod.mk.injEq] at h
    obtain ⟨hst, hamt⟩ := h
    have hamt' : roundDp 2 (min (stp.capital * MAX_BET_PCT)
        (available_capital stp MAX_TOTAL_EXPOSED)) = amt := Option.some.inj hamt
    have hcap : st'.capital = stp.capital := by rw [← hst]; rfl
    have hdep : deployed_capital st' = deployed_capital stp + amt := by
      rw [← hst, deployed_place_open nid _ stp rfl]
      show deployed_capital stp + roundDp 2 (min (stp.capital * MAX_BET_PCT)
        (available_capital stp MAX_TOTAL_EXPOSED)) = deployed_capital stp + amt
      rw [hamt']
    have hdust : 1/10 ≤ amt := by
      push_neg at h2
      rw [hamt'] at h2
      have h010 : (0.10 : ℚ) = 1/10 := by norm_num
      rw [h010] at h2
      exact h2
    have hle := roundDp_le 2 (min (stp.capital * MAX_BET_PCT)
      (available_capital stp MAX_TOTAL_EXPOSED))
    have hmin := min_le_right (stp.capital * MAX_BET_PCT)
      (available_capital stp MAX_TOTAL_EXPOSED)
    have h200 : (1 : ℚ) / (2 * 10 ^ 2) = 1/200 := by norm_num
    rw [h200, hamt'] at hle
    refine ⟨hamt'.symm, hdust, hcap, ?_⟩
    rw [hdep, hcap]
    have hAvail : amt ≤ available_capital stp MAX_TOTAL_EXPOSED + 1/200 := by linarith
    unfold available_capital at hAvail
    rcases max_cases 0 (stp.capital * MAX_TOTAL_EXPOSED - deployed_capital stp) with
      ⟨heq, hc⟩ | ⟨heq, hc⟩ <;> rw [heq] at hAvail <;> linarith

theorem morningLoop_inv (today : String) :
    ∀ (l : List (String × Game)) (st : State),
      ∀ s ∈ (morningLoop today l st).2,
        deployed_capital s ≤ s.capital * MAX_TOTAL_EXPOSED + 1/200 := by
  intro l
  induction l with
  | nil => intro st s hs; simp [morningLoop] at hs
  | cons hd rest ih =>
    intro st s hs
    obtain ⟨nid, g⟩ := hd
    rcases hstep : morningStep today nid st g with ⟨st1, os⟩
    cases os with
    | none =>
      simp only [morningLoop, hstep] at hs
      exact ih st1 s hs
    | some amt =>
      simp only [morningLoop, hstep] at hs
      rcases List.mem_cons.mp hs with rfl | hs'
      · exact (morningStep_some today nid st g s amt hstep).2.2.2
      · exact ih st1 s hs'

/-- C4: the morning allocation policy.  (i) With exposure already at or
above the cap the session is rejected wholesale — no candidate is
considered, regardless of edge score.  (ii) After every placement the
policy itself makes, `deployed_capital ≤ capital · MAX_TOTAL_EXPOSED + ε`
with ε = 1/200 (half a cent, from the 2-decimal stake rounding).  (iii)
Every stake placed equals
`round2(min(capital · MAX_BET_PCT, available_capital(MAX_TOTAL_EXPOSED)))`
and clears the $0.10 dust threshold (smaller stakes are skipped). -/
theorem run_morning_policy (today nid : String) (g : Game)
    (idGames : List (String × Game)) (st stp st' : State) (amt : ℚ) :
    (MAX_TOTAL_EXPOSED ≤ exposureFraction st → run_morning today idGames st = (st, [])) ∧
    (∀ s ∈ (run_morning today idGames st).2,
        deployed_capital s ≤ s.capital * MAX_TOTAL_EXPOSED + 1/200) ∧
    (morningStep today nid stp g = (st', some amt) →
        amt = roundDp 2 (min (stp.capital * MAX_BET_PCT)
                (available_capital stp MAX_TOTAL_EXPOSED)) ∧
        1/10 ≤ amt) := by
  refine ⟨?_, ?_, ?_⟩
  · intro h
    unfold run_morning
    rw [if_pos h]
  · intro s hs
    unfold run_morning at hs
    split_ifs at hs with hb
    · simp at hs
    · exact morningLoop_inv today idGames st s (by simpa using hs)
  · intro h
    exact ⟨(morningStep_some today nid stp g st' amt h).1,
           (morningStep_some today nid stp g st' amt h).2.1⟩

/-- Witness for C4: on the at-cap ledger `stCap` (20 capital, 6.60 deployed)
the whole session is rejected; on a fresh 20.00 ledger the fixture
placement's post-state satisfies the exposure bound, and its stake is
round2(min(20·0.33, 6.60)) = 6.60 ≥ 0.10. -/
theorem run_morning_policy_witness :
    run_morning "d" [("i", gFixture)] stCap = (stCap, []) ∧
    deployed_capital sAfterFixture ≤ sAfterFixture.capital * MAX_TOTAL_EXPOSED + 1/200 ∧
    ((33/5 : ℚ) = roundDp 2 (min ((initState 20).capital * MAX_BET_PCT)
        (available_capital (initState 20) MAX_TOTAL_EXPOSED)) ∧
      (1/10 : ℚ) ≤ 33/5) := by
  have h2 : (morningStep "d" "i" (initState 20) gFixture).2 = some (33/5) := by
    norm_num [morningStep, gFixture, initState, saveState, available_capital,
      deployed_capital, openAmountSum, MAX_BET_PCT, MAX_TOTAL_EXPOSED, compute_nea,
      normalize_news_score, normalize_streak, interpret_nea, roundDp, pyRound, place_bet]
  have hstep : morningStep "d" "i" (initState 20) gFixture = (sAfterFixture, some (33/5)) := by
    rw [sAfterFixture]
    exact Prod.ext rfl h2
  have hmem : sAfterFixture ∈ (run_morning "d" [("i", gFixture)] (initState 20)).2 := by
    unfold run_morning
    rw [if_neg (by norm_num [exposureFraction, initState, saveState, deployed_capital,
      openAmountSum, MAX_TOTAL_EXPOSED])]
    show sAfterFixture ∈ (morningLoop "d" [("i", gFixture)] (initState 20)).2
    simp only [morningLoop, hstep]
    exact List.mem_cons_self _ _
  refine ⟨?_, ?_, ?_⟩
  · exact (run_morning_policy "d" "i" gFixture [("i", gFixture)] stCap stCap stCap (33/5)).1
      (by norm_num [exposureFraction, stCap, deployed_capital, openAmountSum,
        mkOpenBet, MAX_TOTAL_EXPOSED])
  · exact (run_morning_policy "d" "i" gFixture [("i", gFixture)] (initState 20)
      (initState 20) sAfterFixture (33/5)).2.1 sAfterFixture hmem
  · exact (run_morning_policy "d" "i" gFixture [("i", gFixture)] (initState 20)
      (initState 20) sAfterFixture (33/5)).2.2 hstep
